import Mathlib

/-!
Shallow embedding of the custom-transformer core of `src/drug_detection.ipynb`
(classes `SmilesDataset`, `CustomTransformer`, `TransformerBlock`,
`MultiHeadSelfAttention`, `FeedForwardNetwork`).

Modelling conventions:
* Tensors of shape `(batch, seq_len, embed_dim)` are functions
  `Fin b → Fin s → Fin e → ℚ`; exact rational arithmetic stands in for the
  source's floating point.
* The two transcendental ingredients are passed as parameters: `exp : ℚ → ℚ`
  stands for the exponential used by `softmax`, `sqrt : ℚ → ℚ` for the square
  root used by `nn.LayerNorm`, and `sqrtHd : ℚ` for the scalar
  `head_dim ** 0.5` of the attention score scaling.  Every theorem below holds
  for arbitrary instantiations of these parameters (with explicit positivity
  hypotheses where the mathematics needs them).
* `nn.Linear(i, o)` is a weight matrix `(o, i)` plus a bias, applied as
  `y j = Σ_k W j k * x k + b j` (PyTorch computes `x Wᵀ + b`).
* Fallible operations (embedding lookup with an out-of-range token id) return
  `Option`, mirroring the runtime `IndexError` of `nn.Embedding`.
-/

/-- A dense rank-3 tensor of shape `(b, s, e)`, index-function style. -/
abbrev Tensor3 (b s e : ℕ) : Type := Fin b → Fin s → Fin e → ℚ

/-- Parameters of `nn.Linear(inF, outF)`: weight of shape `(outF, inF)` and bias. -/
structure Linear (inF outF : ℕ) : Type where
  weight : Fin outF → Fin inF → ℚ
  bias : Fin outF → ℚ

/-- Apply a linear layer to one vector: `y j = Σ_k W j k * x k + b j`. -/
def Linear.apply {i o : ℕ} (l : Linear i o) (x : Fin i → ℚ) : Fin o → ℚ :=
  fun j => (∑ k, l.weight j k * x k) + l.bias j

/-- Apply a linear layer pointwise over the batch and sequence axes, as PyTorch
does when a `(b, s, i)` tensor is fed to `nn.Linear(i, o)`. -/
def Linear.apply3 {b s i o : ℕ} (l : Linear i o) (x : Tensor3 b s i) :
    Tensor3 b s o :=
  fun bi si => l.apply (x bi si)

/-- Embeds `torch.nn.functional.softmax` over one axis: each entry is
`exp (v i) / Σ_j exp (v j)`. -/
def softmax {n : ℕ} (exp : ℚ → ℚ) (v : Fin n → ℚ) : Fin n → ℚ :=
  fun i => exp (v i) / ∑ j, exp (v j)

/-- Embeds the tokenisation of `SmilesDataset.__getitem__` (and of the ad-hoc
prediction path in `main`): `[ord(c) for c in smile] + [0] * (max_len - len(smile))`.
Python's `ord` is the Unicode code point, i.e. `Char.toNat`; Python list
repetition with a negative count yields the empty list, exactly like
`List.replicate` at truncated subtraction `0`. -/
def smilesTokens (max_len : ℕ) (smile : List Char) : List ℕ :=
  smile.map (fun c => c.toNat) ++ List.replicate (max_len - smile.length) 0

/-- Embeds one row lookup of `nn.Embedding(vocab_size, embed_dim)` at a raw
integer token id: out-of-range ids raise at runtime in PyTorch, modelled as
`none`. -/
def embedLookup {V E : ℕ} (emb : Fin V → Fin E → ℚ) (t : ℕ) :
    Option (Fin E → ℚ) :=
  if h : t < V then some (fun e => emb ⟨t, h⟩ e) else none

/-- Index bound used by the head-splitting reshape
`view(batch, seq, num_heads, head_dim)`. -/
theorem head_index_lt {H hd E : ℕ} (h : H * hd = E) (hh : Fin H) (d : Fin hd) :
    hh.1 * hd + d.1 < E := by
  calc hh.1 * hd + d.1 < hh.1 * hd + hd := Nat.add_lt_add_left d.2 _
    _ = (hh.1 + 1) * hd := by ring
    _ ≤ H * hd := Nat.mul_le_mul_right hd hh.2
    _ = E := h

/-- Index bound used by the head-merging reshape (quotient part). -/
theorem combine_div_lt {H hd E : ℕ} (h : H * hd = E) (e : Fin E) :
    e.1 / hd < H := by
  have hhd : 0 < hd := by
    rcases Nat.eq_zero_or_pos hd with h0 | h1
    · subst h0
      rw [Nat.mul_zero] at h
      exact absurd e.2 (by omega)
    · exact h1
  exact (Nat.div_lt_iff_lt_mul hhd).mpr (by rw [h]; exact e.2)

/-- Index bound used by the head-merging reshape (remainder part). -/
theorem combine_mod_lt {H hd E : ℕ} (h : H * hd = E) (e : Fin E) :
    e.1 % hd < hd := by
  have hhd : 0 < hd := by
    rcases Nat.eq_zero_or_pos hd with h0 | h1
    · subst h0
      rw [Nat.mul_zero] at h
      exact absurd e.2 (by omega)
    · exact h1
  exact Nat.mod_lt _ hhd

/-- Embeds `.view(batch_size, seq_length, num_heads, head_dim).transpose(1, 2)`
applied to a `(b, s, E)` tensor: head `hh`, inner dim `d` reads embedding
coordinate `hh * hd + d` (contiguous split of the last axis). -/
def splitHeads {b s E : ℕ} (H hd : ℕ) (h : H * hd = E) (x : Tensor3 b s E) :
    Fin b → Fin H → Fin s → Fin hd → ℚ :=
  fun bi hh si d => x bi si ⟨hh.1 * hd + d.1, head_index_lt h hh d⟩

/-- Embeds `.transpose(1, 2).contiguous().view(batch_size, seq_length, embed_dim)`:
embedding coordinate `e` reads head `e / hd`, inner dim `e % hd`. -/
def combineHeads {b s E : ℕ} (H hd : ℕ) (h : H * hd = E)
    (y : Fin b → Fin H → Fin s → Fin hd → ℚ) : Tensor3 b s E :=
  fun bi si e => y bi ⟨e.1 / hd, combine_div_lt h e⟩ si ⟨e.1 % hd, combine_mod_lt h e⟩

/-- Learned parameters of `MultiHeadSelfAttention`: four square linear layers. -/
structure MultiHeadSelfAttention (embed_dim num_heads : ℕ) : Type where
  query : Linear embed_dim embed_dim
  key : Linear embed_dim embed_dim
  value : Linear embed_dim embed_dim
  fc_out : Linear embed_dim embed_dim

/-- The shape configuration recorded by `MultiHeadSelfAttention.__init__`. -/
structure MHSAConfig : Type where
  num_heads : ℕ
  embed_dim : ℕ
  head_dim : ℕ

/-- Embeds `MultiHeadSelfAttention.__init__`: it stores
`head_dim = embed_dim // num_heads` (Python floor division) and contains no
divisibility check and no failure path whatsoever, so it returns `ok` on every
input.  (`nn.Linear(embed_dim, embed_dim)` construction never raises either.) -/
def MultiHeadSelfAttention.init (embed_dim num_heads : ℕ) :
    Except String MHSAConfig :=
  Except.ok { num_heads := num_heads, embed_dim := embed_dim,
              head_dim := embed_dim / num_heads }

/-- Embeds `attn_scores = torch.matmul(Q, K.transpose(-2, -1)) / (self.head_dim ** 0.5)`.
The scalar `sqrtHd` stands for the (irrational) value `head_dim ** 0.5`. -/
def MultiHeadSelfAttention.scores {E H b s : ℕ} (m : MultiHeadSelfAttention E H)
    (sqrtHd : ℚ) (hH : H * (E / H) = E) (x : Tensor3 b s E) :
    Fin b → Fin H → Fin s → Fin s → ℚ :=
  let Q := splitHeads H (E / H) hH (m.query.apply3 x)
  let K := splitHeads H (E / H) hH (m.key.apply3 x)
  fun bi hh qi ki => (∑ d, Q bi hh qi d * K bi hh ki d) / sqrtHd

/-- Embeds `attn_weights = torch.nn.functional.softmax(attn_scores, dim=-1)`:
softmax over the key axis, per batch element, head and query position. -/
def MultiHeadSelfAttention.attnWeights {E H b s : ℕ}
    (m : MultiHeadSelfAttention E H) (exp : ℚ → ℚ) (sqrtHd : ℚ)
    (hH : H * (E / H) = E) (x : Tensor3 b s E) :
    Fin b → Fin H → Fin s → Fin s → ℚ :=
  fun bi hh qi => softmax exp (m.scores sqrtHd hH x bi hh qi)

/-- Embeds `MultiHeadSelfAttention.forward`: project to Q, K, V, split heads,
scaled dot-product scores, softmax weights, weighted sum of V, merge heads,
final output projection.  No mask of any kind is applied. -/
def MultiHeadSelfAttention.forward {E H b s : ℕ} (m : MultiHeadSelfAttention E H)
    (exp : ℚ → ℚ) (sqrtHd : ℚ) (hH : H * (E / H) = E) (x : Tensor3 b s E) :
    Tensor3 b s E :=
  let V := splitHeads H (E / H) hH (m.value.apply3 x)
  let W := m.attnWeights exp sqrtHd hH x
  m.fc_out.apply3
    (combineHeads H (E / H) hH (fun bi hh si d => ∑ ki, W bi hh si ki * V bi hh ki d))

/-- Embeds `nn.ReLU()`: negative values clamped to zero. -/
def relu (q : ℚ) : ℚ := max q 0

/-- Learned parameters of `FeedForwardNetwork`: expansion and contraction layers. -/
structure FeedForwardNetwork (embed_dim ff_dim : ℕ) : Type where
  fc1 : Linear embed_dim ff_dim
  fc2 : Linear ff_dim embed_dim

/-- Embeds `FeedForwardNetwork.forward`: `fc2(relu(fc1(x)))`, applied
pointwise per batch element and sequence position. -/
def FeedForwardNetwork.forward {E F b s : ℕ} (f : FeedForwardNetwork E F)
    (x : Tensor3 b s E) : Tensor3 b s E :=
  f.fc2.apply3 (fun bi si j => relu (f.fc1.apply3 x bi si j))

/-- Learned parameters of `nn.LayerNorm(embed_dim)`: per-dimension scale
(`weight`, γ) and shift (`bias`, β). -/
structure LayerNorm (dim : ℕ) : Type where
  weight : Fin dim → ℚ
  bias : Fin dim → ℚ

/-- Embeds `nn.LayerNorm(embed_dim)` on one embedding vector:
`(v - mean) / sqrt(var + eps) * weight + bias` with the biased variance, where
`sqrt` stands for the square root and `eps` for the stability constant
(PyTorch default `1e-5`). -/
def LayerNorm.apply {E : ℕ} (ln : LayerNorm E) (sqrt : ℚ → ℚ) (eps : ℚ)
    (v : Fin E → ℚ) : Fin E → ℚ :=
  let mean := (∑ i, v i) / (E : ℚ)
  let varB := (∑ i, (v i - mean) ^ 2) / (E : ℚ)
  fun i => (v i - mean) / sqrt (varB + eps) * ln.weight i + ln.bias i

/-- Learned parameters of `TransformerBlock`: attention and feed-forward
sublayers with their two layer norms. -/
structure TransformerBlock (embed_dim num_heads ff_dim : ℕ) : Type where
  attention : MultiHeadSelfAttention embed_dim num_heads
  norm1 : LayerNorm embed_dim
  ffn : FeedForwardNetwork embed_dim ff_dim
  norm2 : LayerNorm embed_dim

/-- Embeds `TransformerBlock.forward`:
`x = norm1(x + attention(x)); x = norm2(x + ffn(x))`. -/
def TransformerBlock.forward {E H F b s : ℕ} (blk : TransformerBlock E H F)
    (exp sqrt : ℚ → ℚ) (sqrtHd eps : ℚ) (hH : H * (E / H) = E)
    (x : Tensor3 b s E) : Tensor3 b s E :=
  let attn_output := blk.attention.forward exp sqrtHd hH x
  let x1 : Tensor3 b s E :=
    fun bi si => blk.norm1.apply sqrt eps (fun e => x bi si e + attn_output bi si e)
  let ffn_output := blk.ffn.forward x1
  fun bi si => blk.norm2.apply sqrt eps (fun e => x1 bi si e + ffn_output bi si e)

/-- Learned parameters of `CustomTransformer`: embedding table, learned
positional encoding of shape `(1, 100, embed_dim)` (the broadcast batch axis is
dropped), the block stack, and the classification head. -/
structure CustomTransformer (vocab_size embed_dim num_heads ff_dim num_classes : ℕ) :
    Type where
  embedding : Fin vocab_size → Fin embed_dim → ℚ
  positional_encoding : Fin 100 → Fin embed_dim → ℚ
  layers : List (TransformerBlock embed_dim num_heads ff_dim)
  fc : Linear embed_dim num_classes

/-- Embeds the first line of `CustomTransformer.forward`:
`x = self.embedding(x) + self.positional_encoding[:, :x.shape[1], :]`.
Token ids arrive as raw naturals; any id outside `[0, vocab_size)` raises in
`nn.Embedding`, modelled as `none`.  The slice of the positional table needs
`seq_len ≤ 100`. -/
def CustomTransformer.embedStage {V E H F C b s : ℕ}
    (M : CustomTransformer V E H F C) (tokens : Fin b → Fin s → ℕ)
    (hs : s ≤ 100) : Option (Tensor3 b s E) :=
  if h : ∀ bi si, tokens bi si < V then
    some (fun bi si e => M.embedding ⟨tokens bi si, h bi si⟩ e +
      M.positional_encoding ⟨si.1, lt_of_lt_of_le si.2 hs⟩ e)
  else none

/-- Embeds `CustomTransformer.forward`: embedding plus positional encoding, the
block stack applied in order, unmasked mean pooling over the sequence axis
(`x.mean(dim=1)`), then the final classification projection. -/
def CustomTransformer.forward {V E H F C b s : ℕ}
    (M : CustomTransformer V E H F C) (exp sqrt : ℚ → ℚ) (sqrtHd eps : ℚ)
    (hH : H * (E / H) = E) (tokens : Fin b → Fin s → ℕ) (hs : s ≤ 100) :
    Option (Fin b → Fin C → ℚ) :=
  (M.embedStage tokens hs).map (fun x0 =>
    let xN := M.layers.foldl (fun x blk => blk.forward exp sqrt sqrtHd eps hH x) x0
    let pooled : Fin b → Fin E → ℚ := fun bi e => (∑ si, xN bi si e) / (s : ℚ)
    fun bi => M.fc.apply (pooled bi))

/-- An untyped rank-3 tensor as nested lists, used to state shape facts the way
PyTorch exposes them (`x.shape`). -/
abbrev Tensor3L : Type := List (List (List ℚ))

/-- The shape predicate `t.shape == (b, s, e)` for a nested-list tensor. -/
def hasShape3 (t : Tensor3L) (b s e : ℕ) : Prop :=
  t.length = b ∧ ∀ r ∈ t, r.length = s ∧ ∀ v ∈ r, v.length = e

instance (t : Tensor3L) (b s e : ℕ) : Decidable (hasShape3 t b s e) := by
  unfold hasShape3; infer_instance

/-- Serialise an index-function tensor to nested lists. -/
def ofFn3 {b s e : ℕ} (f : Tensor3 b s e) : Tensor3L :=
  List.ofFn (fun bi => List.ofFn (fun si => List.ofFn (fun ei => f bi si ei)))

/-- Read a nested-list tensor as an index function (out-of-range reads default
to `0`; they never occur on tensors of the right shape). -/
def toFn3 (b s e : ℕ) (t : Tensor3L) : Tensor3 b s e :=
  fun bi si ei => ((t.getD bi.1 []).getD si.1 []).getD ei.1 0

/-- Dimensions `(batch_size, seq_length)` read off the tensor itself, as in
`batch_size, seq_length, embed_dim = x.shape`. -/
def batchOf (t : Tensor3L) : ℕ := t.length

/-- Sequence length read off the tensor itself. -/
def seqOf (t : Tensor3L) : ℕ := (t.getD 0 []).length

/-- `MultiHeadSelfAttention.forward` on a nested-list tensor: read the batch
and sequence dimensions from the input as the source does, run the forward
pass, serialise back. -/
def MultiHeadSelfAttention.forwardL {E H : ℕ} (m : MultiHeadSelfAttention E H)
    (exp : ℚ → ℚ) (sqrtHd : ℚ) (hH : H * (E / H) = E) (t : Tensor3L) : Tensor3L :=
  ofFn3 (m.forward exp sqrtHd hH (toFn3 (batchOf t) (seqOf t) E t))

/-- `FeedForwardNetwork.forward` on a nested-list tensor. -/
def FeedForwardNetwork.forwardL {E F : ℕ} (f : FeedForwardNetwork E F)
    (t : Tensor3L) : Tensor3L :=
  ofFn3 (f.forward (toFn3 (batchOf t) (seqOf t) E t))

/-- `TransformerBlock.forward` on a nested-list tensor. -/
def TransformerBlock.forwardL {E H F : ℕ} (blk : TransformerBlock E H F)
    (exp sqrt : ℚ → ℚ) (sqrtHd eps : ℚ) (hH : H * (E / H) = E) (t : Tensor3L) :
    Tensor3L :=
  ofFn3 (blk.forward exp sqrt sqrtHd eps hH (toFn3 (batchOf t) (seqOf t) E t))

/-- A serialised `(b, s, e)` index-function tensor has shape `(b, s, e)`. -/
theorem hasShape3_ofFn3 {b s e : ℕ} (f : Tensor3 b s e) :
    hasShape3 (ofFn3 f) b s e := by
  refine ⟨by simp [ofFn3], ?_⟩
  intro r hr
  simp only [ofFn3, List.mem_ofFn] at hr
  obtain ⟨bi, rfl⟩ := hr
  refine ⟨by simp, ?_⟩
  intro v hv
  simp only [List.mem_ofFn] at hv
  obtain ⟨si, rfl⟩ := hv
  simp

/-- On a tensor of shape `(b, s, e)` the dimensions read off the tensor agree
with the shape. -/
theorem dims_of_hasShape3 {t : Tensor3L} {b s e : ℕ} (h : hasShape3 t b s e) :
    batchOf t = b ∧ (0 < b → seqOf t = s) := by
  obtain ⟨hb, hr⟩ := h
  refine ⟨hb, ?_⟩
  intro hbpos
  cases t with
  | nil => simp [batchOf] at hb; omega
  | cons r rest =>
    have := hr r (by simp)
    simpa [seqOf] using this.1

/-- Modelled from the spec's words (§4.2 contract, read against claim C1): the
reference multi-head scaled dot-product attention.  Q, K, V are three
independent learned linear projections of X, each reshaped into
`(batch, num_heads, seq_len, head_dim)`; per head, scores are `Q·Kᵗ` divided by
`sqrt(head_dim)` (the scalar `sqrtHd`); a softmax over the key axis — written
out here as `exp(score) / Σ exp(scores)` — gives the weights; the per-head
output is the weighted sum of V; heads are concatenated back to
`(batch, seq_len, embed_dim)` and passed through a final learned linear
projection. -/
def referenceMHSA {E H b s : ℕ} (m : MultiHeadSelfAttention E H)
    (exp : ℚ → ℚ) (sqrtHd : ℚ) (hH : H * (E / H) = E) (x : Tensor3 b s E) :
    Tensor3 b s E :=
  let hd := E / H
  let Q := splitHeads H hd hH (m.query.apply3 x)
  let K := splitHeads H hd hH (m.key.apply3 x)
  let V := splitHeads H hd hH (m.value.apply3 x)
  let scoresR : Fin b → Fin H → Fin s → Fin s → ℚ :=
    fun bi hh qi ki => (∑ d, Q bi hh qi d * K bi hh ki d) / sqrtHd
  let weightsR : Fin b → Fin H → Fin s → Fin s → ℚ :=
    fun bi hh qi ki => exp (scoresR bi hh qi ki) / ∑ kj, exp (scoresR bi hh qi kj)
  let headOut : Fin b → Fin H → Fin s → Fin hd → ℚ :=
    fun bi hh qi d => ∑ ki, weightsR bi hh qi ki * V bi hh ki d
  m.fc_out.apply3 (combineHeads H hd hH headOut)

/-- Modelled from the spec's words (§4.4, read against claim C5): per-position,
per-sample normalisation — subtract the embedding vector's mean, divide by its
standard deviation (stability constant added before the square root), then
apply a learned per-dimension scale and shift. -/
def specNormalize {E : ℕ} (sqrt : ℚ → ℚ) (eps : ℚ) (scale shift : Fin E → ℚ)
    (v : Fin E → ℚ) : Fin E → ℚ :=
  let mean := (∑ i, v i) / (E : ℚ)
  let variance := (∑ i, (v i - mean) ^ 2) / (E : ℚ)
  let std := sqrt (variance + eps)
  fun i => scale i * ((v i - mean) / std) + shift i

/-- Modelled from the spec's words (§4.4, read against claim C5): the two
residual sublayers `x1 = normalize(x + attention(x))`,
`x2 = normalize(x1 + feed_forward(x1))`. -/
def specBlockForward {E H F b s : ℕ} (blk : TransformerBlock E H F)
    (exp sqrt : ℚ → ℚ) (sqrtHd eps : ℚ) (hH : H * (E / H) = E)
    (x : Tensor3 b s E) : Tensor3 b s E :=
  let x1 : Tensor3 b s E := fun bi si =>
    specNormalize sqrt eps blk.norm1.weight blk.norm1.bias
      (fun e => x bi si e + blk.attention.forward exp sqrtHd hH x bi si e)
  fun bi si =>
    specNormalize sqrt eps blk.norm2.weight blk.norm2.bias
      (fun e => x1 bi si e + blk.ffn.forward x1 bi si e)

/-- A concrete 2-dimensional, single-head attention module used to instantiate
hypotheses in witnesses. -/
def mhsaW : MultiHeadSelfAttention 2 1 :=
  { query := { weight := fun _ _ => 1, bias := fun _ => 0 }
    key := { weight := fun _ _ => 1, bias := fun _ => 0 }
    value := { weight := fun _ _ => 1, bias := fun _ => 0 }
    fc_out := { weight := fun _ _ => 1, bias := fun _ => 0 } }

/-- A concrete input tensor of shape `(1, 2, 2)` used by witnesses. -/
def xW : Tensor3 1 2 2 := fun _ si ei => (si.1 : ℚ) + (ei.1 : ℚ)

/-- C1: for every input tensor of shape `(batch, seq_len, embed_dim)`,
`MultiHeadSelfAttention.forward` equals the reference multi-head scaled
dot-product attention assembled from the spec's words: independent Q/K/V
projections split into `(batch, num_heads, seq_len, head_dim)`, per-head scores
`Q·Kᵗ / sqrt(head_dim)`, softmax over the key axis, weighted sum of V, heads
concatenated back and passed through the final output projection. -/
theorem mhsa_forward_eq_reference {E H b s : ℕ} (m : MultiHeadSelfAttention E H)
    (exp : ℚ → ℚ) (sqrtHd : ℚ) (hH : H * (E / H) = E) (x : Tensor3 b s E) :
    m.forward exp sqrtHd hH x = referenceMHSA m exp sqrtHd hH x := rfl

/-- C1 witness: the equality instantiated at a concrete module and input with
`embed_dim = 2`, `num_heads = 1`, the divisibility side condition discharged by
computation. -/
theorem mhsa_forward_eq_reference_witness :
    1 * (2 / 1) = 2 ∧
    mhsaW.forward (fun q => q + 1) 1 (by decide) xW =
      referenceMHSA mhsaW (fun q => q + 1) 1 (by decide) xW :=
  ⟨by decide, mhsa_forward_eq_reference mhsaW (fun q => q + 1) 1 (by decide) xW⟩

/-- C2: the claim predicts a construction-time configuration error for
non-divisible `embed_dim`/`num_heads`; the code has no such check.  At
`embed_dim = 10`, `num_heads = 3` the embedded `__init__` succeeds, silently
recording `head_dim = 10 // 3 = 3`, even though `10 % 3 ≠ 0`; the mismatch
`3 * (10 / 3) ≠ 10` only surfaces later, in `forward`'s `view` reshape. -/
theorem mhsa_init_no_divisibility_check :
    MultiHeadSelfAttention.init 10 3 =
      Except.ok { num_heads := 3, embed_dim := 10, head_dim := 3 } ∧
    10 % 3 ≠ 0 ∧ 3 * (10 / 3) ≠ 10 :=
  ⟨rfl, by decide, by decide⟩

/-- C7: for every input, sample, head and query position, the softmax attention
weights over all key positions sum to exactly 1 (the rational model has no
floating-point error), provided the exponential is positive-valued. -/
theorem attnWeights_sum_one {E H b s : ℕ} (m : MultiHeadSelfAttention E H)
    (exp : ℚ → ℚ) (hexp : ∀ q, 0 < exp q) (sqrtHd : ℚ) (hH : H * (E / H) = E)
    (x : Tensor3 b s E) (bi : Fin b) (hh : Fin H) (qi : Fin s) :
    ∑ ki, m.attnWeights exp sqrtHd hH x bi hh qi ki = 1 := by
  have hne : Nonempty (Fin s) := ⟨qi⟩
  have hpos : 0 < ∑ kj, exp (m.scores sqrtHd hH x bi hh qi kj) :=
    Finset.sum_pos (fun j _ => hexp _) Finset.univ_nonempty
  simp only [MultiHeadSelfAttention.attnWeights, softmax]
  rw [← Finset.sum_div]
  exact div_self (ne_of_gt hpos)

/-- C7 witness: the row-sum property at a concrete module, input and
positive-valued exponential. -/
theorem attnWeights_sum_one_witness :
    (∀ q : ℚ, 0 < (fun _ : ℚ => (1 : ℚ)) q) ∧
    ∑ ki, mhsaW.attnWeights (fun _ => 1) 1 (by decide) xW 0 0 0 ki = 1 :=
  ⟨fun _ => one_pos,
    attnWeights_sum_one mhsaW (fun _ => 1) (fun _ => one_pos) 1 (by decide) xW 0 0 0⟩

/-- C3 counterexample: for a 101-character SMILES string the token sequence
returned by `SmilesDataset.__getitem__` has length 101, not `max_len = 100` —
the code never truncates, it only pads. -/
theorem smilesTokens_long_input_breaks_invariant :
    (smilesTokens 100 (List.replicate 101 'C')).length ≠ 100 := by
  simp [smilesTokens]

/-- C3 (amended): for every SMILES string of length at most `max_len = 100`,
the token sequence has length exactly 100, its first `len(s)` entries are the
character codes of `s`, and every entry beyond `len(s)` is zero padding. -/
theorem smilesTokens_spec (s : List Char) (hs : s.length ≤ 100) :
    (smilesTokens 100 s).length = 100 ∧
    (∀ i : Fin s.length, (smilesTokens 100 s).getD i.1 0 = (s.get i).toNat) ∧
    (∀ i : ℕ, s.length ≤ i → i < 100 → (smilesTokens 100 s).getD i 0 = 0) := by
  refine ⟨by simp [smilesTokens]; omega, ?_, ?_⟩
  · intro i
    have hi : i.1 < (s.map (fun c => c.toNat)).length := by
      simp only [List.length_map]
      exact i.2
    rw [smilesTokens, List.getD_append _ _ _ _ hi, List.getD_eq_getElem _ _ hi]
    simp
  · intro i hge hlt
    have hlen : (s.map (fun c => c.toNat)).length ≤ i := by simpa using hge
    rw [smilesTokens, List.getD_append_right _ _ _ _ hlen]
    have hbound : i - (s.map (fun c => c.toNat)).length < 100 - s.length := by
      simp only [List.length_map]
      omega
    rw [List.getD_eq_getElem _ _ (by simpa using hbound)]
    simp

/-- C3 witness: the amended statement applied to the concrete two-character
string "CO" — length is exactly 100. -/
theorem smilesTokens_spec_witness :
    (smilesTokens 100 ['C', 'O']).length = 100 :=
  (smilesTokens_spec ['C', 'O'] (by decide)).1

/-- C10: `SmilesDataset.__getitem__` performs no upper-bound check on character
codes: whenever the input string contains a character with code point
`≥ 128 = vocab_size`, the returned token sequence contains a token id outside
`[0, vocab_size)`, and the embedding lookup fails on that id for every
embedding table of 128 rows. -/
theorem smilesTokens_overflow_token {E : ℕ} (emb : Fin 128 → Fin E → ℚ)
    (s : List Char) (c : Char) (hc : c ∈ s) (hcode : 128 ≤ c.toNat) :
    ∃ t ∈ smilesTokens 100 s, 128 ≤ t ∧ embedLookup emb t = none := by
  refine ⟨c.toNat, ?_, hcode, ?_⟩
  · exact List.mem_append_left _ (List.mem_map_of_mem _ hc)
  · rw [embedLookup, dif_neg (by omega)]

/-- C10 witness: the character 'é' (code point 233) in a one-character string
produces the out-of-range token 233 whose embedding lookup fails. -/
theorem smilesTokens_overflow_token_witness :
    ('é' ∈ ['é'] ∧ 128 ≤ 'é'.toNat) ∧
    ∃ t ∈ smilesTokens 100 ['é'], 128 ≤ t ∧
      embedLookup (fun _ _ : Fin 128 => (0 : ℚ)) t = none :=
  ⟨⟨by decide, by decide⟩,
    smilesTokens_overflow_token (fun _ _ => 0) ['é'] 'é' (by decide) (by decide)⟩

/-- The source's `nn.LayerNorm` application agrees pointwise with the spec's
wording of normalisation (the learned scale multiplies on the other side). -/
theorem layerNorm_apply_eq_specNormalize {E : ℕ} (ln : LayerNorm E)
    (sqrt : ℚ → ℚ) (eps : ℚ) (v : Fin E → ℚ) :
    ln.apply sqrt eps v = specNormalize sqrt eps ln.weight ln.bias v := by
  funext i
  simp only [LayerNorm.apply, specNormalize]
  ring

/-- A concrete feed-forward module used by witnesses. -/
def ffnW : FeedForwardNetwork 2 1 :=
  { fc1 := { weight := fun _ _ => 1, bias := fun _ => 0 }
    fc2 := { weight := fun _ _ => 1, bias := fun _ => 0 } }

/-- A concrete layer norm used by witnesses. -/
def lnW : LayerNorm 2 := { weight := fun _ => 1, bias := fun _ => 0 }

/-- A concrete transformer block used by witnesses. -/
def blkW : TransformerBlock 2 1 1 :=
  { attention := mhsaW, norm1 := lnW, ffn := ffnW, norm2 := lnW }

/-- C5: `TransformerBlock.forward` computes exactly the two residual sublayers
`x1 = normalize(x + attention(x))` then `x2 = normalize(x1 + feed_forward(x1))`,
with `normalize` acting per position per sample as the spec words it: subtract
the embedding vector's mean, divide by its standard deviation (stability
constant added before the square root), then apply the learned per-dimension
scale and shift. -/
theorem block_forward_eq_spec {E H F b s : ℕ} (blk : TransformerBlock E H F)
    (exp sqrt : ℚ → ℚ) (sqrtHd eps : ℚ) (hH : H * (E / H) = E)
    (x : Tensor3 b s E) :
    blk.forward exp sqrt sqrtHd eps hH x =
      specBlockForward blk exp sqrt sqrtHd eps hH x := by
  funext bi si
  simp only [TransformerBlock.forward, specBlockForward,
    layerNorm_apply_eq_specNormalize]

/-- C5 witness: the block refinement at a concrete block and input, the
divisibility side condition discharged by computation. -/
theorem block_forward_eq_spec_witness :
    1 * (2 / 1) = 2 ∧
    blkW.forward (fun q => q + 1) (fun q => q) 1 1 (by decide) xW =
      specBlockForward blkW (fun q => q + 1) (fun q => q) 1 1 (by decide) xW :=
  ⟨by decide,
    block_forward_eq_spec blkW (fun q => q + 1) (fun q => q) 1 1 (by decide) xW⟩

/-- When every token id is in range, the embedding stage succeeds and returns
exactly `embedding_lookup(tokens) + positional_encoding[:seq_len]`.  Shared
helper for the embedding-stage and whole-forward theorems. -/
theorem embedStage_eq {V E H F C b s : ℕ} (M : CustomTransformer V E H F C)
    (tokens : Fin b → Fin s → ℕ) (hs : s ≤ 100)
    (hv : ∀ bi si, tokens bi si < V) :
    M.embedStage tokens hs =
      some (fun bi si e => M.embedding ⟨tokens bi si, hv bi si⟩ e +
        M.positional_encoding ⟨si.1, lt_of_lt_of_le si.2 hs⟩ e) := by
  rw [CustomTransformer.embedStage, dif_pos hv]

/-- A concrete token batch of shape `(1, 2)` used by witnesses. -/
def tokW : Fin 1 → Fin 2 → ℕ := fun _ si => si.1

/-- A concrete one-block transformer model used by witnesses. -/
def mW : CustomTransformer 2 2 1 1 1 :=
  { embedding := fun t _ => (t.1 : ℚ)
    positional_encoding := fun p _ => (p.1 : ℚ)
    layers := [blkW]
    fc := { weight := fun _ _ => 1, bias := fun _ => 0 } }

/-- C4: for token ids of shape `(batch, seq_len)` with `seq_len ≤ max_len = 100`
and every id in `[0, vocab_size)`, the embedding-plus-positional stage of
`CustomTransformer.forward` produces the `(batch, seq_len, embed_dim)` tensor
`embedding_lookup(tokens) + positional_encoding[:seq_len]`.  The stage is a
pure function of the two parameter tensors — it only reads them. -/
theorem embedStage_spec {V E H F C b s : ℕ} (M : CustomTransformer V E H F C)
    (tokens : Fin b → Fin s → ℕ) (hs : s ≤ 100)
    (hv : ∀ bi si, tokens bi si < V) :
    M.embedStage tokens hs =
      some (fun bi si e => M.embedding ⟨tokens bi si, hv bi si⟩ e +
        M.positional_encoding ⟨si.1, lt_of_lt_of_le si.2 hs⟩ e) :=
  embedStage_eq M tokens hs hv

/-- C4 witness: at a concrete model and token batch the embedding stage
succeeds. -/
theorem embedStage_spec_witness :
    (mW.embedStage tokW (by decide)).isSome = true := by
  rw [embedStage_spec mW tokW (by decide) (by decide)]
  rfl

/-- C6: for every token batch of shape `(batch, seq_len)` with
`seq_len ≤ max_len` and all ids in range, `CustomTransformer.forward` returns
`(batch, num_classes)` logits computed as: embedding plus positional encoding,
the blocks of `layers` applied in sequence (each with its own parameters), an
unweighted mean-pool over the sequence axis summing over all positions
(padding included), then the final linear projection. -/
theorem customTransformer_forward_spec {V E H F C b s : ℕ}
    (M : CustomTransformer V E H F C) (exp sqrt : ℚ → ℚ) (sqrtHd eps : ℚ)
    (hH : H * (E / H) = E) (tokens : Fin b → Fin s → ℕ) (hs : s ≤ 100)
    (hv : ∀ bi si, tokens bi si < V) :
    M.forward exp sqrt sqrtHd eps hH tokens hs =
      some (fun bi =>
        M.fc.apply (fun e =>
          (∑ si, M.layers.foldl (fun x blk => blk.forward exp sqrt sqrtHd eps hH x)
            (fun bi si e => M.embedding ⟨tokens bi si, hv bi si⟩ e +
              M.positional_encoding ⟨si.1, lt_of_lt_of_le si.2 hs⟩ e) bi si e)
            / (s : ℚ))) := by
  rw [CustomTransformer.forward, embedStage_eq M tokens hs hv]
  rfl

/-- C6 witness: the whole forward pass succeeds at a concrete one-block model
and token batch. -/
theorem customTransformer_forward_spec_witness :
    (mW.forward (fun q => q) (fun q => q) 1 1 (by decide) tokW (by decide)).isSome
      = true := by
  rw [customTransformer_forward_spec mW (fun q => q) (fun q => q) 1 1 (by decide)
    tokW (by decide) (by decide)]
  rfl

/-- Serialising any index-function tensor over the dimensions read off a
nested-list tensor of shape `(b, s, e)` again yields shape `(b, s, e)`. -/
theorem hasShape3_ofFn3_dims {b s e : ℕ} {t : Tensor3L} (h : hasShape3 t b s e)
    (f : Tensor3 (batchOf t) (seqOf t) e) : hasShape3 (ofFn3 f) b s e := by
  obtain ⟨hb, hpos⟩ := dims_of_hasShape3 h
  rcases Nat.eq_zero_or_pos b with h0 | h1
  · have h2 := hasShape3_ofFn3 f
    refine ⟨by rw [h2.1, hb, h0], ?_⟩
    intro r hr
    exfalso
    have hnil : (ofFn3 f).length = 0 := by rw [h2.1, hb, h0]
    rw [List.length_eq_zero] at hnil
    rw [hnil] at hr
    exact absurd hr (List.not_mem_nil r)
  · have h2 := hasShape3_ofFn3 f
    refine ⟨by rw [h2.1, hb], ?_⟩
    intro r hr
    obtain ⟨hr1, hr2⟩ := h2.2 r hr
    exact ⟨by rw [hr1, hpos h1], hr2⟩

/-- Single-step shape preservation for the list-level block forward. -/
theorem block_forwardL_shape {E H F b s : ℕ} (blk : TransformerBlock E H F)
    (exp sqrt : ℚ → ℚ) (sqrtHd eps : ℚ) (hH : H * (E / H) = E) {t : Tensor3L}
    (h : hasShape3 t b s E) :
    hasShape3 (blk.forwardL exp sqrt sqrtHd eps hH t) b s E :=
  hasShape3_ofFn3_dims h _

/-- C8: `MultiHeadSelfAttention.forward`, `FeedForwardNetwork.forward` and
`TransformerBlock.forward` are shape-preserving on nested-list tensors of shape
`(batch, seq_len, embed_dim)`, and composing the block with itself any number
of times never changes the shape. -/
theorem forward_shape_preservation {E H F b s : ℕ}
    (m : MultiHeadSelfAttention E H) (f : FeedForwardNetwork E F)
    (blk : TransformerBlock E H F) (exp sqrt : ℚ → ℚ) (sqrtHd eps : ℚ)
    (hH : H * (E / H) = E) (t : Tensor3L) (h : hasShape3 t b s E) :
    hasShape3 (m.forwardL exp sqrtHd hH t) b s E ∧
    hasShape3 (f.forwardL t) b s E ∧
    hasShape3 (blk.forwardL exp sqrt sqrtHd eps hH t) b s E ∧
    ∀ N : ℕ,
      hasShape3 ((fun u => blk.forwardL exp sqrt sqrtHd eps hH u)^[N] t) b s E := by
  refine ⟨hasShape3_ofFn3_dims h _, hasShape3_ofFn3_dims h _,
    block_forwardL_shape blk exp sqrt sqrtHd eps hH h, ?_⟩
  intro N
  induction N generalizing t with
  | zero => simpa using h
  | succ n ih =>
    rw [Function.iterate_succ_apply]
    exact ih _ (block_forwardL_shape blk exp sqrt sqrtHd eps hH h)

/-- A concrete nested-list tensor of shape `(1, 2, 2)` used by witnesses. -/
def tL : Tensor3L := [[[0, 0], [0, 0]]]

/-- C8 witness: shape preservation at a concrete tensor, including a three-fold
composition of the block. -/
theorem forward_shape_preservation_witness :
    hasShape3 tL 1 2 2 ∧
    hasShape3 ((fun u => blkW.forwardL (fun q => q) (fun q => q) 1 1
      (by decide) u)^[3] tL) 1 2 2 :=
  ⟨by decide,
    (forward_shape_preservation mhsaW ffnW blkW (fun q => q) (fun q => q) 1 1
      (by decide) tL (by decide)).2.2.2 3⟩

/-- The 2×2 identity weight matrix, used by the concrete padding-sensitivity
model. -/
def idW2 : Fin 2 → Fin 2 → ℚ := fun j k => if j.1 = k.1 then 1 else 0

/-- A concrete attention module whose scores are all zero (uniform attention)
and whose value and output projections are the identity. -/
def mhsa9 : MultiHeadSelfAttention 2 1 :=
  { query := { weight := fun _ _ => 0, bias := fun _ => 0 }
    key := { weight := fun _ _ => 0, bias := fun _ => 0 }
    value := { weight := idW2, bias := fun _ => 0 }
    fc_out := { weight := idW2, bias := fun _ => 0 } }

/-- A concrete transformer block with the uniform-attention module, identity
norm scales, and a zero feed-forward sublayer. -/
def blk9 : TransformerBlock 2 1 1 :=
  { attention := mhsa9
    norm1 := { weight := fun _ => 1, bias := fun _ => 0 }
    ffn := { fc1 := { weight := fun _ _ => 0, bias := fun _ => 0 }
             fc2 := { weight := fun _ _ => 0, bias := fun _ => 0 } }
    norm2 := { weight := fun _ => 1, bias := fun _ => 0 } }

/-- A concrete one-layer model (`vocab_size = 2`, `embed_dim = 2`,
`num_heads = 1`) used to exhibit padding sensitivity. -/
def mC9 : CustomTransformer 2 2 1 1 1 :=
  { embedding := fun t e => if e.1 = 0 then (t.1 : ℚ) else 0
    positional_encoding := fun _ _ => 0
    layers := [blk9]
    fc := { weight := fun _ k => if k.1 = 0 then 1 else 0, bias := fun _ => 0 } }

/-- Token batch `[1, 0]`: one real token followed by a zero padding position. -/
def tA : Fin 1 → Fin 2 → ℕ := fun _ si => if si.1 = 0 then 1 else 0

/-- Token batch `[1, 1]`: identical at the non-padded position 0, but the
content of the padding position is changed from 0 to 1. -/
def tB : Fin 1 → Fin 2 → ℕ := fun _ _ => 1

/-- C9: no padding mask exists anywhere in the forward pass — attention weights
and mean pooling range over every position — so two inputs that agree at all
non-padded positions and differ only in the content of the zero-padded
position produce different logits under the same parameters: the concrete model
`mC9` maps `[1, 0]` and `[1, 1]` to different outputs. -/
theorem forward_padding_sensitivity :
    tA 0 0 = tB 0 0 ∧ tA 0 1 = 0 ∧
    (mC9.forward (fun _ => 1) (fun q => q) 1 1 (by decide) tA (by decide)).map
        (fun f => f 0 0) ≠
      (mC9.forward (fun _ => 1) (fun q => q) 1 1 (by decide) tB (by decide)).map
        (fun f => f 0 0) := by
  refine ⟨rfl, rfl, ?_⟩
  rw [CustomTransformer.forward, CustomTransformer.forward,
    embedStage_eq mC9 tA (by decide) (by decide),
    embedStage_eq mC9 tB (by decide) (by decide)]
  norm_num [mC9, blk9, mhsa9, idW2, tA, tB, List.foldl,
    TransformerBlock.forward, MultiHeadSelfAttention.forward,
    MultiHeadSelfAttention.attnWeights, MultiHeadSelfAttention.scores,
    softmax, splitHeads, combineHeads, Linear.apply3, Linear.apply,
    LayerNorm.apply, FeedForwardNetwork.forward, relu,
    Fin.sum_univ_two, Fin.isValue]
